import Mathlib

/-!
Verification of the mayday task-oriented dialogue agent (Python backend).

We shallowly embed the dialogue core: the slot schema and the deterministic
slot validator and clarification selector (`backend/agents/slots.py`), the
per-session conversation state (`backend/core/memory.py`), the error
formatter (`backend/utils/formatters.py`), and the orchestrator turn loop
`process_message` (`backend/agents/agent.py`).  External collaborators (the
LLM intent classifier, the LLM slot extractor, and the two HTTP data
providers) are modelled as oracle inputs to a turn: the orchestrator's
behaviour is a pure function of the session store, the session id, and the
oracle's answers, exactly mirroring the Python control flow.
-/

namespace Mayday

/-- A Python value stored in a slot dictionary: either `None` or a string.
The extraction pipeline only ever stores JSON strings or null in slots. -/
inductive PyVal where
  | pnone
  | pstr (s : String)
deriving DecidableEq, Repr

/-- A Python `dict` with string keys, as an insertion-ordered association
list with unique keys (Python dicts preserve insertion order; `update`
overwrites in place and appends new keys). -/
abbrev Dict (β : Type) := List (String × β)

/-- Python `d.get(k)` on a dict: `some v` if the key is present. -/
def dictGet {β : Type} (d : Dict β) (k : String) : Option β :=
  match d.find? (fun p => p.1 == k) with
  | some p => some p.2
  | none => none

/-- Python `d[k] = v` on a dict: overwrite in place if present, else append. -/
def dictInsert {β : Type} (d : Dict β) (k : String) (v : β) : Dict β :=
  if d.any (fun p => p.1 == k) then
    d.map (fun p => if p.1 == k then (k, v) else p)
  else
    d ++ [(k, v)]

/-- Python `d.update(n)` on a dict: insert every pair of `n` in order. -/
def dictUpdate {β : Type} (d n : Dict β) : Dict β :=
  n.foldl (fun acc p => dictInsert acc p.1 p.2) d

/-- A slot mapping, `slots` in the Python code. -/
abbrev Slots := Dict PyVal

/-- Worker for `pySplit`: walk the characters, accumulating the current
word (reversed); whitespace ends the current word, and empty words are
never produced. -/
def pyWords : List Char → List Char → List String
  | [], acc => if acc.isEmpty then [] else [String.mk acc.reverse]
  | c :: cs, acc =>
      if c.isWhitespace then
        if acc.isEmpty then pyWords cs [] else String.mk acc.reverse :: pyWords cs []
      else
        pyWords cs (c :: acc)

/-- Python `str.split()` with no argument: split on whitespace runs,
discarding empty fragments. -/
def pySplit (s : String) : List String :=
  pyWords s.toList []

/-- Python `str.strip()`: drop leading and trailing whitespace. -/
def pyStrip (s : String) : String :=
  String.mk (((s.toList.dropWhile Char.isWhitespace).reverse.dropWhile Char.isWhitespace).reverse)

/-- Python `str.upper()` (ASCII case mapping). -/
def pyUpper (s : String) : String :=
  String.mk (s.toList.map Char.toUpper)

/-- Python truthiness of a slot value (`not value`): `None` and the empty
string are falsy. -/
def pyFalsy : PyVal → Bool
  | .pnone => true
  | .pstr s => s == ""

/-! ## Slot schema and validator (`backend/agents/slots.py`) -/

/-- Schema `REQUIRED_SLOTS`: required parameter names per intent, in declared
order. -/
def REQUIRED_SLOTS : List (String × List String) :=
  [("weather", ["location"]), ("stock", ["symbol", "exchange"])]

/-- Schema lookup: `intent in REQUIRED_SLOTS` / `REQUIRED_SLOTS[intent]`. -/
def schemaOf (intent : String) : Option (List String) :=
  match REQUIRED_SLOTS.find? (fun p => p.1 == intent) with
  | some p => some p.2
  | none => none

/-- The test `not value or (isinstance(value, str) and not value.strip())`
applied to `slots.get(slot_name)`: a slot is missing when absent, `None`,
or a string that is empty after stripping whitespace. -/
def slotAbsent (v : Option PyVal) : Bool :=
  match v with
  | none => true
  | some w =>
      pyFalsy w ||
        (match w with
         | .pstr s => pyStrip s == ""
         | .pnone => false)

/-- Result of `validate_slots`. -/
structure ValidationResult where
  valid : Bool
  missing : List String
deriving DecidableEq, Repr

/-- Validator `validate_slots(slots, intent)`: deterministic completeness check.
If the intent has no schema entry the result is `valid` with nothing
missing; otherwise the required list is scanned in declared order and
each absent/empty parameter is collected. -/
def validate_slots (slots : Slots) (intent : String) : ValidationResult :=
  match schemaOf intent with
  | none => ⟨true, []⟩
  | some required =>
      let missing := required.filter (fun name => slotAbsent (dictGet slots name))
      ⟨missing.isEmpty, missing⟩

/-- Selector `generate_clarification(missing_slots, intent)`: question for the first
missing slot, with a generic fallback for unrecognized pairs and the empty
string when nothing is missing. -/
def generate_clarification (missing_slots : List String) (intent : String) : String :=
  match missing_slots with
  | [] => ""
  | slot :: _ =>
      if intent == "weather" then
        if slot == "location" then
          "Which city would you like the weather for?"
        else
          "Could you provide more information?"
      else if intent == "stock" then
        if slot == "symbol" then
          "Which stock would you like to check? Please provide the symbol (e.g., TSLA for Tesla)."
        else if slot == "exchange" then
          "Which exchange? (e.g., NASDAQ, NYSE)"
        else
          "Could you provide more information?"
      else
        "Could you provide more information?"

/-! ## Conversation state and memory (`backend/core/memory.py`) -/

/-- Class `ConversationState`: one session's mutable state.  `datetime.now()` is
modelled by an abstract tick (`Nat`) supplied at each mutation. -/
structure ConversationState where
  session_id : String
  active_intent : Option String
  slots : Slots
  slot_completion_status : Dict Bool
  last_updated : Nat
deriving DecidableEq, Repr

/-- Constructor call `ConversationState(session_id=sid)`: the freshly created state, with
`datetime.now()` taken at creation time. -/
def freshState (sid : String) (now : Nat) : ConversationState :=
  { session_id := sid
    active_intent := none
    slots := []
    slot_completion_status := []
    last_updated := now }

/-- Method `reset_slots`: clear slot data and completion status, refresh
timestamp.  (`active_intent` is left as it is.) -/
def ConversationState.reset_slots (st : ConversationState) (now : Nat) : ConversationState :=
  { st with slots := [], slot_completion_status := [], last_updated := now }

/-- Method `update_intent(new_intent)`: when the intent changed, reset slots and
record the new intent; otherwise do nothing. -/
def ConversationState.update_intent (st : ConversationState) (new_intent : String) (now : Nat) :
    ConversationState :=
  if st.active_intent ≠ some new_intent then
    let st' := st.reset_slots now
    { st' with active_intent := some new_intent, last_updated := now }
  else
    st

/-- Method `update_slots(new_slots)`: merge into the existing slots, refresh
timestamp. -/
def ConversationState.update_slots (st : ConversationState) (new_slots : Slots) (now : Nat) :
    ConversationState :=
  { st with slots := dictUpdate st.slots new_slots, last_updated := now }

/-- Method `get_slot(slot_name, default)`. -/
def ConversationState.get_slot (st : ConversationState) (slot_name : String)
    (default : PyVal := .pnone) : PyVal :=
  match dictGet st.slots slot_name with
  | some v => v
  | none => default

/-- Store `ConversationMemory._states`: the session store, keyed by session id. -/
abbrev Memory := Dict ConversationState

/-- Method `ConversationMemory.get_state(session_id)`: get or create.  Returns the
state together with the (possibly extended) store. -/
def get_state (mem : Memory) (sid : String) (now : Nat) : ConversationState × Memory :=
  match dictGet mem sid with
  | some st => (st, mem)
  | none => (freshState sid now, dictInsert mem sid (freshState sid now))

/-! ## Formatters (`backend/utils/formatters.py`) -/

/-- Weather record assembled by `services/weather.py`.  Numeric fields are
carried as their rendered strings; their float rendering happens outside
the embedded core. -/
structure WeatherData where
  city : String
  country : String
  condition : String
  temperature : String
  feels_like : String
  humidity : String
  wind_speed : String
deriving DecidableEq, Repr

/-- Stock record assembled by `services/stocks.py`.  Numeric fields are
carried as their rendered strings; `change_nonneg` models the test
`data['change'] >= 0`. -/
structure StockData where
  symbol : String
  name : String
  exchange : String
  price : String
  currency : String
  change_nonneg : Bool
  percent_change : String
  market_open : Bool
deriving DecidableEq, Repr

/-- Formatter `format_weather_response(data)`. -/
def format_weather_response (data : WeatherData) : String :=
  "Weather in " ++ data.city ++ ", " ++ data.country ++ ":\n• Condition: " ++
    data.condition ++ "\n• Temperature: " ++ data.temperature ++ "°C (feels like " ++
    data.feels_like ++ "°C)\n• Humidity: " ++ data.humidity ++ "%\n• Wind speed: " ++
    data.wind_speed ++ " m/s"

/-- Formatter `format_stock_response(data)`. -/
def format_stock_response (data : StockData) : String :=
  let sign := if data.change_nonneg then "+" else ""
  let market_status := if data.market_open then "Open" else "Closed"
  data.name ++ " (" ++ data.symbol ++ ") is trading at $" ++ data.price ++ " " ++
    data.currency ++ " on " ++ data.exchange ++ ".\nToday's change: " ++ sign ++
    data.percent_change ++ "%.\nMarket status: " ++ market_status ++ "."

/-- Typed exceptions the two data services can raise into the orchestrator,
each carrying its raw provider-derived message string.  `otherExc` stands
for any exception outside the service hierarchy. -/
inductive PyExc where
  | cityNotFoundError (msg : String)
  | freeTierLimitError (msg : String)
  | stockNotFoundError (msg : String)
  | weatherAPIError (msg : String)
  | stockServiceError (msg : String)
  | otherExc (msg : String)
deriving DecidableEq, Repr

/-- Formatter `format_error_message(error, error_type)`: fixed user-facing templates,
selected by the `error_type` string only; the exception is never consulted. -/
def format_error_message (error : PyExc) (error_type : String) : String :=
  if error_type == "city_not_found" then
    "I couldn't find weather data for that location.\nCould you check the spelling or specify a nearby city?"
  else if error_type == "free_tier_limit" then
    "I can't fetch live prices for NSE/BSE stocks with the free data plan.\n\nI can provide:\n• US markets like NASDAQ or NYSE\n• Or general company information\n\nWould you like to try a US exchange instead?"
  else if error_type == "stock_not_found" then
    "I couldn't find that stock symbol.\nPlease check the symbol or try specifying the exchange (e.g., \"TSLA on NASDAQ\")."
  else if error_type == "api_timeout" then
    "The service is taking too long to respond. Please try again in a moment."
  else
    "I encountered an error processing your request. Please try again."

/-! ## Slot-value normalization (`backend/utils/validators.py`) -/

/-- Normalizer `normalize_stock_symbol(symbol)`: uppercase and drop characters outside
`A-Z0-9`. -/
def normalize_stock_symbol (symbol : String) : String :=
  if symbol == "" then ""
  else
    String.mk ((pyUpper symbol).toList.filter
      (fun c => (decide ('A' ≤ c) && decide (c ≤ 'Z')) || (decide ('0' ≤ c) && decide (c ≤ '9'))))

/-- Table `exchange_map` of `normalize_exchange`. -/
def exchange_map : Dict String :=
  [("NASDAQ", "NASDAQ"), ("NYSE", "NYSE"), ("NSE", "NSE"), ("BSE", "BSE"),
   ("LSE", "LSE"), ("HKEX", "HKEX")]

/-- Normalizer `normalize_exchange(exchange)`: default to NASDAQ when falsy, else
upper-case, strip, and pass through the exchange map. -/
def normalize_exchange (exchange : Option String) : String :=
  match exchange with
  | none => "NASDAQ"
  | some e =>
      if e == "" then "NASDAQ"
      else
        let e := pyStrip (pyUpper e)
        (dictGet exchange_map e).getD e

/-! ## Slot extraction (`backend/core/llm.py`, `backend/agents/slots.py`)

The LLM chain invocation is an external collaborator; its outcome per turn
is an oracle input: either the parsed JSON dictionary it returned, or an
exception inside the chain. -/

/-- Outcome of the LLM slot-extraction chain for one turn. -/
inductive ExtractOutcome where
  | ok (result : Slots)
  | exc
deriving DecidableEq, Repr

/-- Function `core.llm.extract_slots(message, intent, existing_slots)`: for an
unsupported intent return `{}`; on a chain exception return the existing
slots unchanged; otherwise merge the non-null extracted values over the
existing slots. -/
def llm_extract_slots (intent : String) (existing_slots : Slots) (o : ExtractOutcome) : Slots :=
  if intent ≠ "weather" ∧ intent ≠ "stock" then []
  else
    match o with
    | .ok result => dictUpdate existing_slots (result.filter (fun p => p.2 ≠ PyVal.pnone))
    | .exc => existing_slots

/-- One statement `if key in slots and slots[key]: slots[key] = f(slots[key])`
of the stock-intent normalization block. -/
def normalizeSlotValue (slots : Slots) (key : String) (f : String → String) : Slots :=
  match dictGet slots key with
  | some (PyVal.pstr s) =>
      if s ≠ "" then dictInsert slots key (PyVal.pstr (f s)) else slots
  | _ => slots

/-- The stock-intent normalization block of `agents.slots.extract_slots`:
truthy `symbol` and `exchange` values are canonicalized in place. -/
def normalizeStockSlots (slots : Slots) : Slots :=
  normalizeSlotValue (normalizeSlotValue slots "symbol" normalize_stock_symbol)
    "exchange" (fun s => normalize_exchange (some s))

/-- Function `agents.slots.extract_slots(message, intent, existing_slots)`. -/
def extract_slots (intent : String) (existing_slots : Slots) (o : ExtractOutcome) : Slots :=
  let slots := llm_extract_slots intent existing_slots o
  if intent == "stock" then normalizeStockSlots slots else slots

/-! ## The orchestrator turn (`backend/agents/agent.py`, `process_message`)

All external collaborator answers for one turn are gathered in a
`TurnOracle`; the turn itself is then a pure function of the session store
and the oracle. -/

/-- Outcome of one external data-provider call: a result record or a raised
exception. -/
inductive CallResult (α : Type) where
  | ok (v : α)
  | exc (e : PyExc)
deriving DecidableEq, Repr

/-- The external collaborators' answers for one turn. -/
structure TurnOracle where
  intent : String
  generalResponse : String
  extraction : ExtractOutcome
  weatherResult : CallResult WeatherData
  stockResult : CallResult StockData
deriving DecidableEq, Repr

/-- The yield loop over `response.split()`: every word but the last is
emitted with a trailing space, the last bare. -/
def streamFragments : List String → List String
  | [] => []
  | [w] => [w]
  | w :: w' :: ws => (w ++ " ") :: streamFragments (w' :: ws)

/-- The `except` chain of `process_message`: each service exception is
mapped to its fixed user-facing message; the raised exception's own text is
never used. -/
def agent_error_response : PyExc → String
  | .cityNotFoundError m => format_error_message (.cityNotFoundError m) "city_not_found"
  | .freeTierLimitError m => format_error_message (.freeTierLimitError m) "free_tier_limit"
  | .stockNotFoundError m => format_error_message (.stockNotFoundError m) "stock_not_found"
  | .weatherAPIError m => format_error_message (.weatherAPIError m) "general"
  | .stockServiceError m => format_error_message (.stockServiceError m) "general"
  | .otherExc _ => "I encountered an unexpected error. Please try again."

/-- The `try` body of `process_message` once all slots are filled: one
external call selected by intent, formatted on success, or the raised
exception. -/
def dispatchAttempt (intent : String) (o : TurnOracle) : Except PyExc String :=
  if intent == "weather" then
    match o.weatherResult with
    | .ok d => .ok (format_weather_response d)
    | .exc e => .error e
  else if intent == "stock" then
    match o.stockResult with
    | .ok d => .ok (format_stock_response d)
    | .exc e => .error e
  else
    .ok "I'm not sure how to help with that."

/-- Steps 2–3 of the turn: the intent-switch check followed by the merge of
the freshly extracted slots. -/
def turnStateAfterMerge (st : ConversationState) (o : TurnOracle) (now : Nat) :
    ConversationState :=
  let state1 := if st.active_intent ≠ some o.intent then st.update_intent o.intent now else st
  state1.update_slots (extract_slots o.intent state1.slots o.extraction) now

/-- Result of one turn: the response text, the streamed fragments, and the
session store after the turn. -/
structure TurnResult where
  reply : String
  fragments : List String
  memory : Memory
deriving DecidableEq, Repr

/-- Orchestrator `process_message(session_id, message)` as a pure function of the store
and the turn oracle.  The Python code mutates the state object held by the
store in place; here the final state is written back to the store. -/
def process_message (mem : Memory) (sid : String) (o : TurnOracle) (now : Nat) : TurnResult :=
  let sm := get_state mem sid now
  let state := sm.1
  let mem1 := sm.2
  if o.intent == "unknown" then
    { reply := o.generalResponse
      fragments := streamFragments (pySplit o.generalResponse)
      memory := mem1 }
  else
    let state2 := turnStateAfterMerge state o now
    let validation := validate_slots state2.slots o.intent
    if !validation.valid then
      let clarification := generate_clarification validation.missing o.intent
      { reply := clarification
        fragments := streamFragments (pySplit clarification)
        memory := dictInsert mem1 sid state2 }
    else
      match dispatchAttempt o.intent o with
      | .ok response =>
          { reply := response
            fragments := streamFragments (pySplit response)
            memory := dictInsert mem1 sid (state2.reset_slots now) }
      | .error e =>
          let response := agent_error_response e
          { reply := response
            fragments := streamFragments (pySplit response)
            memory := dictInsert mem1 sid (state2.reset_slots now) }

/-! ## Specification-level definitions

These definitions come from the specification's wording, to be compared
with the code-derived definitions above in the theorems below. -/

/-- In-order concatenation of a sequence of text fragments. -/
def concatFragments : List String → String
  | [] => ""
  | w :: ws => w ++ concatFragments ws

/-- Missing-parameter criterion as the specification words it: a value is
missing when it is absent, null, or a string that is empty after trimming
whitespace. -/
def SlotMissingSpec (v : Option PyVal) : Prop :=
  v = none ∨ v = some PyVal.pnone ∨ ∃ s, v = some (PyVal.pstr s) ∧ pyStrip s = ""

/-- User-facing failure taxonomy of the specification. -/
inductive ErrorClass where
  | notFound
  | unsupportedTier
  | providerError
  | unexpected
deriving DecidableEq, Repr

/-- Classification of each service exception into the specification's
taxonomy, read off the orchestrator's `except` chain. -/
def classifyExc : PyExc → ErrorClass
  | .cityNotFoundError _ => .notFound
  | .stockNotFoundError _ => .notFound
  | .freeTierLimitError _ => .unsupportedTier
  | .weatherAPIError _ => .providerError
  | .stockServiceError _ => .providerError
  | .otherExc _ => .unexpected

/-- Marker for the city variant of a not-found failure. -/
def isCityExc : PyExc → Bool
  | .cityNotFoundError _ => true
  | _ => false

/-- Fixed user-facing message per classification, with the not-found class
split into its city and stock variants. -/
def templateOfClass : ErrorClass → Bool → String
  | .notFound, true =>
      "I couldn't find weather data for that location.\nCould you check the spelling or specify a nearby city?"
  | .notFound, false =>
      "I couldn't find that stock symbol.\nPlease check the symbol or try specifying the exchange (e.g., \"TSLA on NASDAQ\")."
  | .unsupportedTier, _ =>
      "I can't fetch live prices for NSE/BSE stocks with the free data plan.\n\nI can provide:\n• US markets like NASDAQ or NYSE\n• Or general company information\n\nWould you like to try a US exchange instead?"
  | .providerError, _ =>
      "I encountered an error processing your request. Please try again."
  | .unexpected, _ =>
      "I encountered an unexpected error. Please try again."

/-- Replacement of the raw provider-derived message of an exception by the
empty string. -/
def eraseMsg : PyExc → PyExc
  | .cityNotFoundError _ => .cityNotFoundError ""
  | .freeTierLimitError _ => .freeTierLimitError ""
  | .stockNotFoundError _ => .stockNotFoundError ""
  | .weatherAPIError _ => .weatherAPIError ""
  | .stockServiceError _ => .stockServiceError ""
  | .otherExc _ => .otherExc ""

/-- Extraction contract of the specification: for a supported task the
extractor only returns values for parameters of that task's schema. -/
def ExtractionScoped (o : TurnOracle) : Prop :=
  (o.intent = "weather" ∨ o.intent = "stock") →
    ∀ result, o.extraction = ExtractOutcome.ok result →
      ∀ p ∈ result, p.1 ∈ (schemaOf o.intent).getD []

/-- Intent-scoping invariant of the specification: slots only hold values
for parameters of the active task's schema (and no task in progress means
no slots). -/
def StateWF (st : ConversationState) : Prop :=
  match st.active_intent with
  | none => st.slots = []
  | some i => ∀ p ∈ st.slots, p.1 ∈ (schemaOf i).getD []

/-- Well-formedness of every session in the store. -/
def MemWF (mem : Memory) : Prop := ∀ p ∈ mem, StateWF p.2

/-- Iterated orchestrator turns: each list entry is one turn's session id,
oracle, and tick. -/
def runTurns : Memory → List (String × TurnOracle × Nat) → Memory
  | mem, [] => mem
  | mem, (sid, o, t) :: rest => runTurns (process_message mem sid o t).memory rest

/-! ## Concrete inputs used in counterexamples -/

/-- Weather record used in concrete runs. -/
def parisWeather : WeatherData :=
  { city := "Paris", country := "FR", condition := "Clear", temperature := "20"
    feels_like := "19", humidity := "50", wind_speed := "3" }

/-- Turn oracle: weather intent, extraction finds the location, provider
call succeeds. -/
def weatherOkOracle : TurnOracle :=
  { intent := "weather", generalResponse := ""
    extraction := .ok [("location", PyVal.pstr "Paris")]
    weatherResult := .ok parisWeather
    stockResult := .exc (.otherExc "unused") }

/-- Turn oracle: weather intent, extraction finds the location, provider
call times out (`requests.exceptions.Timeout` re-raised by the service as
`WeatherAPIError("Weather service timeout")`). -/
def timeoutOracle : TurnOracle :=
  { intent := "weather", generalResponse := ""
    extraction := .ok [("location", PyVal.pstr "Paris")]
    weatherResult := .exc (.weatherAPIError "Weather service timeout")
    stockResult := .exc (.otherExc "unused") }

/-- Turn oracle: weather intent, extraction finds the location, geocoding
finds no city (`CityNotFoundError`). -/
def nowhereOracle : TurnOracle :=
  { intent := "weather", generalResponse := ""
    extraction := .ok [("location", PyVal.pstr "Nowhereistan")]
    weatherResult := .exc (.cityNotFoundError "City Nowhereistan not found")
    stockResult := .exc (.otherExc "unused") }

/-- Turn oracle: weather intent, but the extraction chain returned a value
for a parameter outside the weather schema. -/
def fooOracle : TurnOracle :=
  { intent := "weather", generalResponse := ""
    extraction := .ok [("foo", PyVal.pstr "bar")]
    weatherResult := .exc (.otherExc "unused")
    stockResult := .exc (.otherExc "unused") }

/-- Turn oracle: weather intent, extraction returned an empty string for
the already-filled location slot. -/
def emptyLocOracle : TurnOracle :=
  { intent := "weather", generalResponse := ""
    extraction := .ok [("location", PyVal.pstr "")]
    weatherResult := .exc (.otherExc "unused")
    stockResult := .exc (.otherExc "unused") }

/-- Session state with the weather task active and its location filled. -/
def stateLocFilled : ConversationState :=
  { session_id := "s", active_intent := some "weather"
    slots := [("location", PyVal.pstr "Paris")]
    slot_completion_status := [], last_updated := 1 }

/-- Session store holding one weather session with its location filled. -/
def memLocFilled : Memory := [("s", stateLocFilled)]

/-- Turn oracle for a purely conversational message ("unknown" intent). -/
def unknownOracle : TurnOracle :=
  { intent := "unknown", generalResponse := "Hello! How can I help you today?"
    extraction := .exc
    weatherResult := .exc (.otherExc "unused")
    stockResult := .exc (.otherExc "unused") }

/-! ## Dictionary lemmas -/

theorem dictGet_nil {β : Type} (k : String) : dictGet ([] : Dict β) k = none := rfl

theorem dictGet_cons {β : Type} (p : String × β) (d : Dict β) (k : String) :
    dictGet (p :: d) k = if p.1 == k then some p.2 else dictGet d k := by
  by_cases h : p.1 == k
  · simp [dictGet, List.find?, h]
  · simp [dictGet, List.find?, h]

theorem dictGet_eq_none_of_not_mem_keys {β : Type} {d : Dict β} {k : String}
    (h : k ∉ d.map Prod.fst) : dictGet d k = none := by
  induction d with
  | nil => rfl
  | cons q t ih =>
      rw [dictGet_cons]
      have hq : q.1 ≠ k := by
        intro he
        exact h (by simp [he.symm])
      have ht : k ∉ t.map Prod.fst := fun hm => h (by simp [hm])
      simp [hq, ih ht]

theorem str_beq_to_eq {a b : String} (h : (a == b) = true) : a = b := by
  simpa using h

theorem dictGet_map_overwrite {β : Type} {a : String} {v : β} {k : String} (hka : k ≠ a)
    (t : Dict β) :
    dictGet (t.map (fun p => if p.1 == a then (a, v) else p)) k = dictGet t k := by
  induction t with
  | nil => rfl
  | cons q t ih =>
      by_cases hq : (q.1 == a) = true
      · have hq' : q.1 = a := str_beq_to_eq hq
        rw [List.map_cons, if_pos hq, dictGet_cons, dictGet_cons]
        have h1 : ((a, v).1 == k) = false :=
          beq_eq_false_iff_ne.mpr (fun h => hka h.symm)
        have h2 : (q.1 == k) = false :=
          beq_eq_false_iff_ne.mpr (hq' ▸ fun h => hka h.symm)
        rw [if_neg (by simp [h1]), if_neg (by simp [h2]), ih]
      · rw [List.map_cons, if_neg hq, dictGet_cons, dictGet_cons]
        by_cases hk : (q.1 == k) = true
        · rw [if_pos hk, if_pos hk]
        · rw [if_neg hk, if_neg hk, ih]

theorem dictGet_dictInsert {β : Type} (d : Dict β) (a : String) (v : β) (k : String) :
    dictGet (dictInsert d a v) k = if k = a then some v else dictGet d k := by
  unfold dictInsert
  by_cases hany : d.any (fun p => p.1 == a)
  · rw [if_pos hany]
    induction d with
    | nil => simp at hany
    | cons q t ih =>
        by_cases hq : (q.1 == a) = true
        · have hq' : q.1 = a := str_beq_to_eq hq
          rw [List.map_cons, if_pos hq, dictGet_cons]
          by_cases hk : k = a
          · subst hk
            simp
          · have h1 : ((a, v).1 == k) = false :=
              beq_eq_false_iff_ne.mpr (fun h => hk h.symm)
            rw [if_neg (by simp [h1]), dictGet_map_overwrite hk, dictGet_cons, if_neg hk]
            have h2 : (q.1 == k) = false :=
              beq_eq_false_iff_ne.mpr (hq' ▸ fun h => hk h.symm)
            rw [if_neg (by simp [h2])]
        · have hq' : ¬ q.1 = a := fun h => hq (by simp [h])
          have hany' : t.any (fun p => p.1 == a) := by
            rcases List.any_eq_true.mp hany with ⟨p, hp, hpa⟩
            rcases List.mem_cons.mp hp with h | h
            · exact absurd (str_beq_to_eq (by simpa [h] using hpa)) hq'
            · exact List.any_eq_true.mpr ⟨p, h, hpa⟩
          rw [List.map_cons, if_neg hq, dictGet_cons, dictGet_cons]
          by_cases hk : (q.1 == k) = true
          · have hk' : q.1 = k := str_beq_to_eq hk
            rw [if_pos hk, if_pos hk, if_neg (show ¬ k = a from hk' ▸ fun h => hq' h)]
          · rw [if_neg hk, if_neg hk, ih hany']
  · rw [if_neg hany]
    induction d with
    | nil =>
        rw [List.nil_append, dictGet_cons, dictGet_nil]
        by_cases hk : k = a
        · subst hk
          simp
        · have : ((a, v).1 == k) = false := by
            simp only [beq_eq_false_iff_ne]
            exact fun h => hk h.symm
          simp [this, hk]
    | cons q t ih =>
        have hq : ¬ (q.1 == a) = true := fun h => hany (List.any_eq_true.mpr ⟨q, by simp, h⟩)
        have hq' : ¬ q.1 = a := by simpa using hq
        have hany' : ¬ t.any (fun p => p.1 == a) = true := by
          intro h
          rcases List.any_eq_true.mp h with ⟨p, hp, hpa⟩
          exact hany (List.any_eq_true.mpr ⟨p, by simp [hp], hpa⟩)
        rw [List.cons_append, dictGet_cons, dictGet_cons]
        by_cases hk : (q.1 == k) = true
        · have hk' : q.1 = k := str_beq_to_eq hk
          rw [if_pos hk, if_pos hk, if_neg (show ¬ k = a from hk' ▸ fun h => hq' h)]
        · rw [if_neg hk, if_neg hk, ih hany']

theorem mem_dictInsert {β : Type} {d : Dict β} {a : String} {v : β} {p : String × β}
    (h : p ∈ dictInsert d a v) : p = (a, v) ∨ p ∈ d := by
  unfold dictInsert at h
  by_cases hany : d.any (fun q => q.1 == a)
  · rw [if_pos hany] at h
    rcases List.mem_map.mp h with ⟨q, hq, hfq⟩
    by_cases hqa : q.1 == a
    · rw [if_pos hqa] at hfq
      exact Or.inl hfq.symm
    · rw [if_neg hqa] at hfq
      exact Or.inr (hfq ▸ hq)
  · rw [if_neg hany] at h
    rcases List.mem_append.mp h with h | h
    · exact Or.inr h
    · exact Or.inl (by simpa using h)

theorem dictGet_dictInsert_isSome {β : Type} {d : Dict β} {k : String} (a : String) (v : β)
    (h : (dictGet d k).isSome) : (dictGet (dictInsert d a v) k).isSome := by
  rw [dictGet_dictInsert]
  by_cases hk : k = a
  · simp [hk]
  · simpa [hk] using h

theorem mem_dictUpdate {β : Type} {d n : Dict β} {p : String × β}
    (h : p ∈ dictUpdate d n) : p ∈ d ∨ p ∈ n := by
  induction n generalizing d with
  | nil => exact Or.inl h
  | cons q t ih =>
      have h' : p ∈ dictUpdate (dictInsert d q.1 q.2) t := h
      rcases ih h' with h1 | h1
      · rcases mem_dictInsert h1 with h2 | h2
        · exact Or.inr (by simp [h2])
        · exact Or.inl h2
      · exact Or.inr (by simp [h1])

theorem dictGet_dictUpdate_isSome {β : Type} {d : Dict β} (n : Dict β) {k : String}
    (h : (dictGet d k).isSome) : (dictGet (dictUpdate d n) k).isSome := by
  induction n generalizing d with
  | nil => exact h
  | cons q t ih => exact ih (dictGet_dictInsert_isSome q.1 q.2 h)

theorem dictGet_dictUpdate_of_none {β : Type} {n : Dict β} {k : String} (d : Dict β)
    (h : dictGet n k = none) : dictGet (dictUpdate d n) k = dictGet d k := by
  induction n generalizing d with
  | nil => rfl
  | cons q t ih =>
      rw [dictGet_cons] at h
      by_cases hq : q.1 == k
      · rw [if_pos hq] at h
        exact absurd h (by simp)
      · rw [if_neg hq] at h
        have hk : ¬ k = q.1 := by
          intro he
          exact hq (by simp [he])
        have := ih (dictInsert d q.1 q.2) h
        rw [show dictUpdate d (q :: t) = dictUpdate (dictInsert d q.1 q.2) t from rfl, this,
          dictGet_dictInsert, if_neg hk]

theorem dictGet_dictUpdate_of_some {β : Type} {n : Dict β} {k : String} {v : β} (d : Dict β)
    (hn : (n.map Prod.fst).Nodup) (h : dictGet n k = some v) :
    dictGet (dictUpdate d n) k = some v := by
  induction n generalizing d with
  | nil => simp [dictGet_nil] at h
  | cons q t ih =>
      rw [List.map_cons, List.nodup_cons] at hn
      rw [dictGet_cons] at h
      by_cases hq : (q.1 == k) = true
      · rw [if_pos hq] at h
        have hk : k = q.1 := (str_beq_to_eq hq).symm
        have ht : dictGet t k = none :=
          dictGet_eq_none_of_not_mem_keys (by rw [hk]; exact hn.1)
        rw [show dictUpdate d (q :: t) = dictUpdate (dictInsert d q.1 q.2) t from rfl,
          dictGet_dictUpdate_of_none _ ht, dictGet_dictInsert, if_pos hk, h]
      · rw [if_neg hq] at h
        exact ih (dictInsert d q.1 q.2) hn.2 h

/-! ## Validator characterization -/

theorem slotAbsent_iff (v : Option PyVal) : slotAbsent v = true ↔ SlotMissingSpec v := by
  cases v with
  | none => simp [slotAbsent, SlotMissingSpec]
  | some w =>
      cases w with
      | pnone => simp [slotAbsent, SlotMissingSpec, pyFalsy]
      | pstr s =>
          simp only [slotAbsent, SlotMissingSpec, pyFalsy, Bool.or_eq_true, beq_iff_eq]
          constructor
          · intro h
            refine Or.inr (Or.inr ⟨s, rfl, ?_⟩)
            rcases h with h | h
            · subst h
              rfl
            · exact h
          · rintro (h | h | ⟨t, ht, htr⟩)
            · exact absurd h (by simp)
            · exact absurd h (by simp)
            · cases ht
              exact Or.inr htr

theorem schemaOf_eq_some {intent : String} {req : List String}
    (h : schemaOf intent = some req) :
    (intent = "weather" ∧ req = ["location"]) ∨
      (intent = "stock" ∧ req = ["symbol", "exchange"]) := by
  unfold schemaOf REQUIRED_SLOTS at h
  by_cases h1 : ("weather" == intent) = true
  · have h1' : intent = "weather" := (str_beq_to_eq h1).symm
    subst h1'
    left
    refine ⟨rfl, ?_⟩
    simpa [List.find?] using h.symm
  · by_cases h2 : ("stock" == intent) = true
    · have h2' : intent = "stock" := (str_beq_to_eq h2).symm
      subst h2'
      right
      refine ⟨rfl, ?_⟩
      simp only [List.find?] at h
      simp at h1
      simpa [h1] using h.symm
    · simp only [List.find?] at h
      rw [show ((("weather", ["location"]).1 == intent)) = false from by simpa using h1,
        show ((("stock", ["symbol", "exchange"]).1 == intent)) = false from by simpa using h2] at h
      cases h

theorem schemaOf_nodup {intent : String} {req : List String}
    (h : schemaOf intent = some req) : req.Nodup := by
  rcases schemaOf_eq_some h with ⟨_, hr⟩ | ⟨_, hr⟩ <;> subst hr <;> decide

theorem validate_slots_missing_eq (slots : Slots) (intent : String) (req : List String)
    (h : schemaOf intent = some req) :
    validate_slots slots intent =
      ⟨(req.filter (fun name => slotAbsent (dictGet slots name))).isEmpty,
        req.filter (fun name => slotAbsent (dictGet slots name))⟩ := by
  unfold validate_slots
  rw [h]

/-- C2: the validator gives `valid` and an empty `missing` when the task
has no schema entry; otherwise `missing` is exactly the sublist of the
schema's required parameters, in declared order, whose value is absent,
`None`, or a string that is empty after trimming whitespace, `valid` is
true iff `missing` is empty, and on an empty slot mapping every required
parameter is reported missing with `valid = false`. -/
theorem validate_slots_spec (slots : Slots) (intent : String) :
    (schemaOf intent = none → validate_slots slots intent = ⟨true, []⟩) ∧
    (∀ req, schemaOf intent = some req →
      ((validate_slots slots intent).missing.Sublist req ∧
        (∀ p, p ∈ (validate_slots slots intent).missing ↔
          p ∈ req ∧ SlotMissingSpec (dictGet slots p)) ∧
        ((validate_slots slots intent).valid = true ↔
          (validate_slots slots intent).missing = []))) ∧
    (∀ req, schemaOf intent = some req → validate_slots [] intent = ⟨false, req⟩) := by
  refine ⟨fun h => by unfold validate_slots; rw [h], fun req h => ?_, fun req h => ?_⟩
  · rw [validate_slots_missing_eq slots intent req h]
    refine ⟨List.filter_sublist _, fun p => ?_, ?_⟩
    · rw [List.mem_filter]
      exact and_congr_right (fun _ => slotAbsent_iff _)
    · simp [List.isEmpty_iff]
  · rw [validate_slots_missing_eq [] intent req h]
    have hall : req.filter (fun name => slotAbsent (dictGet [] name)) = req :=
      List.filter_eq_self.mpr (fun a _ => by rw [dictGet_nil]; rfl)
    rw [hall]
    rcases schemaOf_eq_some h with ⟨_, hr⟩ | ⟨_, hr⟩ <;> subst hr <;> rfl

/-- C2 witness: concrete instantiation on the stock task with an empty
symbol and a filled exchange, and on the empty slot mapping. -/
theorem validate_slots_spec_witness :
    ((validate_slots [("symbol", PyVal.pstr " "), ("exchange", PyVal.pstr "NASDAQ")] "stock").missing =
        ["symbol"] ∧
      "symbol" ∈ (validate_slots [("symbol", PyVal.pstr " "), ("exchange", PyVal.pstr "NASDAQ")] "stock").missing ∧
      SlotMissingSpec (dictGet [("symbol", PyVal.pstr " "), ("exchange", PyVal.pstr "NASDAQ")] "symbol")) ∧
    validate_slots [] "weather" = ⟨false, ["location"]⟩ := by
  refine ⟨⟨by decide, ?_, ?_⟩, ?_⟩
  · exact ((validate_slots_spec [("symbol", PyVal.pstr " "), ("exchange", PyVal.pstr "NASDAQ")]
      "stock").2.1 ["symbol", "exchange"] rfl).2.1 "symbol" |>.mpr
      ⟨by decide, Or.inr (Or.inr ⟨" ", rfl, by decide⟩)⟩
  · exact Or.inr (Or.inr ⟨" ", rfl, by decide⟩)
  · exact (validate_slots_spec [] "weather").2.2 ["location"] rfl

/-! ## Intent switch (C5) -/

/-- C5: switching to a different task empties the slots (and the completion
statuses), records the new task and refreshes the timestamp, while an
update to the already-active task leaves the state entirely unchanged. -/
theorem update_intent_spec (st : ConversationState) (new_intent : String) (now : Nat) :
    (st.active_intent ≠ some new_intent →
      st.update_intent new_intent now =
        { session_id := st.session_id, active_intent := some new_intent, slots := [],
          slot_completion_status := [], last_updated := now }) ∧
    (st.active_intent = some new_intent → st.update_intent new_intent now = st) := by
  constructor
  · intro h
    unfold ConversationState.update_intent ConversationState.reset_slots
    rw [if_pos h]
  · intro h
    unfold ConversationState.update_intent
    rw [if_neg (by simp [h])]

/-- C5 witness: a switch from stock to weather drops the filled symbol
slot, and a repeated weather intent is a no-op. -/
theorem update_intent_spec_witness :
    ({ session_id := "s", active_intent := some "stock",
       slots := [("symbol", PyVal.pstr "TSLA")], slot_completion_status := [],
       last_updated := 3 } : ConversationState).update_intent "weather" 7 =
      { session_id := "s", active_intent := some "weather", slots := [],
        slot_completion_status := [], last_updated := 7 } ∧
    ({ session_id := "s", active_intent := some "weather",
       slots := [("location", PyVal.pstr "Paris")], slot_completion_status := [],
       last_updated := 3 } : ConversationState).update_intent "weather" 9 =
      { session_id := "s", active_intent := some "weather",
        slots := [("location", PyVal.pstr "Paris")], slot_completion_status := [],
        last_updated := 3 } :=
  ⟨(update_intent_spec _ "weather" 7).1 (by decide),
   (update_intent_spec _ "weather" 9).2 rfl⟩

/-! ## Clarification selector (C6) -/

/-- C6 counterexample: the claim states that for every input other than a
declared `(task, first-missing-parameter)` pair the selector returns a
non-empty generic fallback question; on the empty missing list (which is
not a declared pair) it returns the empty string instead. -/
theorem generate_clarification_counterexample :
    generate_clarification [] "weather" = "" := rfl

/-- C6 amended: the selector depends only on the task and the first entry
of `missing`; each `(task, parameter)` pair declared in the schema yields
its fixed non-empty question; every other input with a non-empty missing
list yields the non-empty generic fallback; the empty missing list yields
the empty string. -/
theorem generate_clarification_spec :
    (∀ m1 m2 intent, m1.head? = m2.head? →
      generate_clarification m1 intent = generate_clarification m2 intent) ∧
    (∀ rest, generate_clarification ("location" :: rest) "weather" =
      "Which city would you like the weather for?") ∧
    (∀ rest, generate_clarification ("symbol" :: rest) "stock" =
      "Which stock would you like to check? Please provide the symbol (e.g., TSLA for Tesla).") ∧
    (∀ rest, generate_clarification ("exchange" :: rest) "stock" =
      "Which exchange? (e.g., NASDAQ, NYSE)") ∧
    (∀ slot rest intent,
      ¬ ((intent = "weather" ∧ slot = "location") ∨
          (intent = "stock" ∧ (slot = "symbol" ∨ slot = "exchange"))) →
      generate_clarification (slot :: rest) intent = "Could you provide more information?") ∧
    (∀ slot rest intent, generate_clarification (slot :: rest) intent ≠ "") ∧
    (∀ intent, generate_clarification [] intent = "") := by
  refine ⟨?_, fun rest => rfl, fun rest => rfl, fun rest => rfl, ?_, ?_, fun intent => rfl⟩
  · intro m1 m2 intent h
    cases m1 with
    | nil =>
        cases m2 with
        | nil => rfl
        | cons b t2 => simp at h
    | cons a t1 =>
        cases m2 with
        | nil => simp at h
        | cons b t2 =>
            simp only [List.head?] at h
            cases h
            rfl
  · intro slot rest intent h
    simp only [generate_clarification]
    by_cases hw : (intent == "weather") = true
    · have hw' : intent = "weather" := str_beq_to_eq hw
      have hs : ¬ slot = "location" := fun hl => h (Or.inl ⟨hw', hl⟩)
      rw [if_pos hw, if_neg (by simpa using hs)]
    · by_cases hst : (intent == "stock") = true
      · have hst' : intent = "stock" := str_beq_to_eq hst
        have h1 : ¬ slot = "symbol" := fun hl => h (Or.inr ⟨hst', Or.inl hl⟩)
        have h2 : ¬ slot = "exchange" := fun hl => h (Or.inr ⟨hst', Or.inr hl⟩)
        rw [if_neg hw, if_pos hst, if_neg (by simpa using h1), if_neg (by simpa using h2)]
      · rw [if_neg hw, if_neg hst]
  · intro slot rest intent
    simp only [generate_clarification]
    by_cases hw : (intent == "weather") = true
    · rw [if_pos hw]
      by_cases hl : (slot == "location") = true
      · rw [if_pos hl]
        decide
      · rw [if_neg hl]
        decide
    · by_cases hst : (intent == "stock") = true
      · rw [if_neg hw, if_pos hst]
        by_cases h1 : (slot == "symbol") = true
        · rw [if_pos h1]
          decide
        · rw [if_neg h1]
          by_cases h2 : (slot == "exchange") = true
          · rw [if_pos h2]
            decide
          · rw [if_neg h2]
            decide
      · rw [if_neg hw, if_neg hst]
        decide

/-- C6 witness: the selector ignores everything after the first missing
entry, answers the generic fallback on an undeclared pair, and the
declared stock-exchange question is non-empty. -/
theorem generate_clarification_spec_witness :
    generate_clarification ["location"] "weather" =
      generate_clarification ["location", "extra"] "weather" ∧
    generate_clarification ["city"] "weather" = "Could you provide more information?" ∧
    generate_clarification ["exchange"] "stock" ≠ "" :=
  ⟨generate_clarification_spec.1 _ _ "weather" rfl,
   generate_clarification_spec.2.2.2.2.1 "city" [] "weather" (by decide),
   generate_clarification_spec.2.2.2.2.2.1 "exchange" [] "stock"⟩

/-! ## Orchestrator branch lemmas -/

theorem turnStateAfterMerge_active (st : ConversationState) (o : TurnOracle) (now : Nat) :
    (turnStateAfterMerge st o now).active_intent = some o.intent := by
  unfold turnStateAfterMerge ConversationState.update_slots
  by_cases h : st.active_intent ≠ some o.intent
  · rw [if_pos h]
    unfold ConversationState.update_intent
    rw [if_pos h]
  · rw [if_neg h]
    push_neg at h
    exact h

theorem process_message_unknown (mem : Memory) (sid : String) (o : TurnOracle) (now : Nat)
    (hint : o.intent = "unknown") :
    process_message mem sid o now =
      { reply := o.generalResponse
        fragments := streamFragments (pySplit o.generalResponse)
        memory := (get_state mem sid now).2 } := by
  unfold process_message
  rw [if_pos (by simp [hint])]

theorem process_message_clarify (mem : Memory) (sid : String) (o : TurnOracle) (now : Nat)
    (hunk : o.intent ≠ "unknown")
    (hinvalid :
      (validate_slots (turnStateAfterMerge (get_state mem sid now).1 o now).slots o.intent).valid =
        false) :
    process_message mem sid o now =
      { reply :=
          generate_clarification
            (validate_slots (turnStateAfterMerge (get_state mem sid now).1 o now).slots
              o.intent).missing o.intent
        fragments :=
          streamFragments (pySplit (generate_clarification
            (validate_slots (turnStateAfterMerge (get_state mem sid now).1 o now).slots
              o.intent).missing o.intent))
        memory :=
          dictInsert (get_state mem sid now).2 sid
            (turnStateAfterMerge (get_state mem sid now).1 o now) } := by
  unfold process_message
  rw [if_neg (by simp [hunk])]
  simp only [hinvalid, Bool.not_false, if_pos]

theorem process_message_dispatch (mem : Memory) (sid : String) (o : TurnOracle) (now : Nat)
    (hunk : o.intent ≠ "unknown")
    (hvalid :
      (validate_slots (turnStateAfterMerge (get_state mem sid now).1 o now).slots o.intent).valid =
        true) :
    process_message mem sid o now =
      { reply :=
          match dispatchAttempt o.intent o with
          | .ok r => r
          | .error e => agent_error_response e
        fragments :=
          streamFragments (pySplit
            (match dispatchAttempt o.intent o with
             | .ok r => r
             | .error e => agent_error_response e))
        memory :=
          dictInsert (get_state mem sid now).2 sid
            ((turnStateAfterMerge (get_state mem sid now).1 o now).reset_slots now) } := by
  unfold process_message
  rw [if_neg (by simp [hunk])]
  simp only [hvalid, Bool.not_true, if_neg, Bool.false_eq_true, not_false_iff]
  cases dispatchAttempt o.intent o with
  | ok r => rfl
  | error e => rfl

/-! ## General conversation turns (C8) -/

/-- C8: a turn whose message is classified with the unknown-intent label
streams the free-form reply and never mutates session state: the store is
unchanged and an existing session's state (task, slots, timestamp) is
identical before and after the turn. -/
theorem unknown_turn_frame (mem : Memory) (sid : String) (o : TurnOracle) (now : Nat)
    (st : ConversationState) (hint : o.intent = "unknown") (hst : dictGet mem sid = some st) :
    (process_message mem sid o now).memory = mem ∧
    dictGet (process_message mem sid o now).memory sid = some st ∧
    (process_message mem sid o now).reply = o.generalResponse := by
  rw [process_message_unknown mem sid o now hint]
  have hmem : (get_state mem sid now).2 = mem := by
    unfold get_state
    rw [hst]
  exact ⟨hmem, by rw [hmem, hst], rfl⟩

/-- C8 witness: a joke-style turn against a session holding a half-filled
weather task changes nothing. -/
theorem unknown_turn_frame_witness :
    (process_message memLocFilled "s" unknownOracle 9).memory = memLocFilled ∧
    dictGet (process_message memLocFilled "s" unknownOracle 9).memory "s" = some stateLocFilled ∧
    (process_message memLocFilled "s" unknownOracle 9).reply = unknownOracle.generalResponse :=
  unknown_turn_frame memLocFilled "s" unknownOracle 9 stateLocFilled rfl rfl

/-! ## Session creation (C10) -/

/-- C10: every turn resolves the session through `get_state`: a first
reference creates and stores the fresh state with no active task and no
slots, a later reference returns the stored state with the store
unchanged, after any processed turn the session's entry exists, and a
purely conversational (unknown-intent) first turn stores exactly the
fresh state. -/
theorem get_state_spec (mem : Memory) (sid : String) (now : Nat) :
    (dictGet mem sid = none →
      get_state mem sid now = (freshState sid now, dictInsert mem sid (freshState sid now)) ∧
      dictGet (get_state mem sid now).2 sid = some (freshState sid now) ∧
      (freshState sid now).active_intent = none ∧ (freshState sid now).slots = []) ∧
    (∀ st, dictGet mem sid = some st → get_state mem sid now = (st, mem)) ∧
    (∀ o, (dictGet (process_message mem sid o now).memory sid).isSome) ∧
    (∀ o, o.intent = "unknown" → dictGet mem sid = none →
      dictGet (process_message mem sid o now).memory sid = some (freshState sid now)) := by
  have hsnd : (dictGet (get_state mem sid now).2 sid).isSome := by
    unfold get_state
    cases hm : dictGet mem sid with
    | some st => simpa using congrArg Option.isSome hm
    | none =>
        simp only
        rw [dictGet_dictInsert]
        simp
  refine ⟨fun h => ?_, fun st h => ?_, fun o => ?_, fun o hint h => ?_⟩
  · have hg : get_state mem sid now = (freshState sid now, dictInsert mem sid (freshState sid now)) := by
      unfold get_state
      rw [h]
    refine ⟨hg, ?_, rfl, rfl⟩
    rw [hg, dictGet_dictInsert]
    simp
  · unfold get_state
    rw [h]
  · unfold process_message
    by_cases hu : (o.intent == "unknown") = true
    · rw [if_pos hu]
      exact hsnd
    · rw [if_neg hu]
      simp only
      by_cases hv :
          (validate_slots (turnStateAfterMerge (get_state mem sid now).1 o now).slots
            o.intent).valid = true
      · rw [if_neg (by simp [hv])]
        cases dispatchAttempt o.intent o with
        | ok r =>
            simp only
            rw [dictGet_dictInsert]
            simp
        | error e =>
            simp only
            rw [dictGet_dictInsert]
            simp
      · rw [if_pos (by simpa using hv)]
        simp only
        rw [dictGet_dictInsert]
        simp
  · rw [process_message_unknown mem sid o now hint]
    simp only
    unfold get_state
    rw [h]
    simp only
    rw [dictGet_dictInsert]
    simp

/-- C10 witness: a conversational first turn on a fresh session id creates
the empty session entry, and a second lookup returns the stored state. -/
theorem get_state_spec_witness :
    (get_state ([] : Memory) "s" 4 = (freshState "s" 4, dictInsert [] "s" (freshState "s" 4)) ∧
      dictGet (get_state ([] : Memory) "s" 4).2 "s" = some (freshState "s" 4) ∧
      (freshState "s" 4).active_intent = none ∧ (freshState "s" 4).slots = []) ∧
    get_state memLocFilled "s" 4 = (stateLocFilled, memLocFilled) ∧
    dictGet (process_message ([] : Memory) "s" unknownOracle 4).memory "s" =
      some (freshState "s" 4) :=
  ⟨(get_state_spec [] "s" 4).1 rfl,
   (get_state_spec memLocFilled "s" 4).2.1 stateLocFilled rfl,
   (get_state_spec [] "s" 4).2.2.2 unknownOracle rfl rfl⟩

/-! ## State after a completed dispatch (C1) -/

/-- C1 counterexample: the claim says a completed dispatch ends the turn
with `slots = {}` and `active_task = none`; after a successful weather
dispatch the stored state indeed has empty slots, but `active_intent` is
still `some "weather"` — `reset_slots` never reverts the active task to
none. -/
theorem dispatch_reset_counterexample :
    dictGet (process_message [] "s" weatherOkOracle 1).memory "s" =
      some { session_id := "s", active_intent := some "weather", slots := [],
             slot_completion_status := [], last_updated := 1 } ∧
    (some "weather" : Option String) ≠ none := by
  exact ⟨by decide, by simp⟩

/-- C1 amended: every turn that reaches dispatch (non-unknown intent,
complete slot set) ends — on success or on any classified error — with the
stored state holding `slots = {}`, cleared completion statuses and a fresh
timestamp, while `active_task` keeps the just-dispatched task label
instead of reverting to none. -/
theorem dispatch_reset_amended (mem : Memory) (sid : String) (o : TurnOracle) (now : Nat)
    (hunk : o.intent ≠ "unknown")
    (hvalid :
      (validate_slots (turnStateAfterMerge (get_state mem sid now).1 o now).slots o.intent).valid =
        true) :
    ∃ st : ConversationState,
      dictGet (process_message mem sid o now).memory sid = some st ∧
      st.slots = [] ∧ st.slot_completion_status = [] ∧
      st.active_intent = some o.intent ∧ st.last_updated = now := by
  rw [process_message_dispatch mem sid o now hunk hvalid]
  refine ⟨(turnStateAfterMerge (get_state mem sid now).1 o now).reset_slots now, ?_, rfl, rfl,
    ?_, rfl⟩
  · simp only
    rw [dictGet_dictInsert]
    simp
  · show ((turnStateAfterMerge (get_state mem sid now).1 o now).reset_slots now).active_intent =
      some o.intent
    unfold ConversationState.reset_slots
    exact turnStateAfterMerge_active _ o now

/-- C1 witness: the amended statement instantiated on a concrete
successful weather dispatch. -/
theorem dispatch_reset_amended_witness :
    ∃ st : ConversationState,
      dictGet (process_message [] "s" weatherOkOracle 1).memory "s" = some st ∧
      st.slots = [] ∧ st.slot_completion_status = [] ∧
      st.active_intent = some weatherOkOracle.intent ∧ st.last_updated = 1 :=
  dispatch_reset_amended [] "s" weatherOkOracle 1 (by decide) (by decide)

/-! ## Streaming of the reply (C9) -/

theorem concatFragments_streamFragments (ws : List String) :
    concatFragments (streamFragments ws) = concatFragments (List.intersperse " " ws) := by
  induction ws with
  | nil => rfl
  | cons w t ih =>
      cases t with
      | nil => rfl
      | cons w' t' =>
          show (w ++ " ") ++ concatFragments (streamFragments (w' :: t')) =
            w ++ (" " ++ concatFragments (List.intersperse " " (w' :: t')))
          rw [ih, String.append_assoc]

/-- C9 counterexample: on the NotFound weather scenario the reply is the
fixed two-line "couldn't find weather data" template, and the in-order
concatenation of the streamed fragments differs from that reply text (the
newline is lost to word splitting). -/
theorem stream_concat_counterexample :
    concatFragments (process_message [] "s" nowhereOracle 1).fragments ≠
      (process_message [] "s" nowhereOracle 1).reply := by
  decide

/-- C9 amended: every turn's reply is emitted as the finite sequence of
its whitespace-delimited words, all but the last carrying one trailing
space; the in-order concatenation of the fragments equals the reply's
words rejoined with single spaces — the whitespace-normalized reply — which
coincides with the reply text itself only when the reply's internal
whitespace is single spaces. -/
theorem stream_fragments_spec (mem : Memory) (sid : String) (o : TurnOracle) (now : Nat) :
    (process_message mem sid o now).fragments =
      streamFragments (pySplit (process_message mem sid o now).reply) ∧
    concatFragments (process_message mem sid o now).fragments =
      concatFragments (List.intersperse " " (pySplit (process_message mem sid o now).reply)) := by
  have hfrag : (process_message mem sid o now).fragments =
      streamFragments (pySplit (process_message mem sid o now).reply) := by
    unfold process_message
    by_cases hu : (o.intent == "unknown") = true
    · rw [if_pos hu]
    · rw [if_neg hu]
      simp only
      by_cases hv :
          (validate_slots (turnStateAfterMerge (get_state mem sid now).1 o now).slots
            o.intent).valid = true
      · rw [if_neg (by simp [hv])]
        cases dispatchAttempt o.intent o <;> rfl
      · rw [if_pos (by simpa using hv)]
  exact ⟨hfrag, by rw [hfrag, concatFragments_streamFragments]⟩

/-! ## Dispatch failure classification (C4) -/

/-- C4 counterexample: a provider timeout (re-raised by the weather
service as `WeatherAPIError("Weather service timeout")`) is caught and
classified with the general provider-error reply — not the code's own
timeout template, so no "service timeout" style message is produced — and
the two NotFound failures (city and stock) produce two different
messages, so that classification has no single fixed template. -/
theorem error_classification_counterexample :
    (process_message [] "s" timeoutOracle 1).reply =
      "I encountered an error processing your request. Please try again." ∧
    (process_message [] "s" timeoutOracle 1).reply ≠
      format_error_message (PyExc.weatherAPIError "Weather service timeout") "api_timeout" ∧
    agent_error_response (PyExc.cityNotFoundError "m") ≠
      agent_error_response (PyExc.stockNotFoundError "m") := by
  exact ⟨by decide, by decide, by decide⟩

/-- C4 amended: every failure raised during dispatch is caught — the turn
still produces a reply and clears the slots — and the reply is exactly the
fixed template determined by the failure's classification (NotFound,
UnsupportedTier, ProviderError, Unexpected), with the NotFound class split
into its city and stock variants; the reply never depends on the raw
provider message carried by the exception, so raw provider text never
reaches the user. -/
theorem error_classification_amended (mem : Memory) (sid : String) (o : TurnOracle) (now : Nat)
    (e : PyExc) (hunk : o.intent ≠ "unknown")
    (hvalid :
      (validate_slots (turnStateAfterMerge (get_state mem sid now).1 o now).slots o.intent).valid =
        true)
    (herr : dispatchAttempt o.intent o = Except.error e) :
    (process_message mem sid o now).reply = templateOfClass (classifyExc e) (isCityExc e) ∧
    (process_message mem sid o now).reply = agent_error_response (eraseMsg e) ∧
    (∃ st, dictGet (process_message mem sid o now).memory sid = some st ∧ st.slots = []) := by
  rw [process_message_dispatch mem sid o now hunk hvalid]
  simp only [herr]
  refine ⟨?_, ?_,
    ⟨(turnStateAfterMerge (get_state mem sid now).1 o now).reset_slots now, ?_, rfl⟩⟩
  · cases e <;> rfl
  · cases e <;> rfl
  · rw [dictGet_dictInsert]
    simp

/-- C4 witness: the amended statement instantiated on the concrete timeout
turn. -/
theorem error_classification_amended_witness :
    (process_message [] "s" timeoutOracle 1).reply =
      templateOfClass (classifyExc (PyExc.weatherAPIError "Weather service timeout"))
        (isCityExc (PyExc.weatherAPIError "Weather service timeout")) ∧
    (process_message [] "s" timeoutOracle 1).reply =
      agent_error_response (eraseMsg (PyExc.weatherAPIError "Weather service timeout")) ∧
    (∃ st, dictGet (process_message [] "s" timeoutOracle 1).memory "s" = some st ∧
      st.slots = []) :=
  error_classification_amended [] "s" timeoutOracle 1
    (PyExc.weatherAPIError "Weather service timeout") (by decide) (by decide) rfl

/-! ## Progressive filling (C7) -/

theorem filter_length_flip {l : List String} (hl : l.Nodup) {p : String} (hp : p ∈ l)
    {f g : String → Bool} (hfp : f p = true) (hgp : g p = false)
    (hq : ∀ q ∈ l, q ≠ p → f q = g q) :
    (l.filter g).length + 1 = (l.filter f).length := by
  induction l with
  | nil => cases hp
  | cons a t ih =>
      rw [List.nodup_cons] at hl
      by_cases hap : a = p
      · subst hap
        rw [List.filter_cons_of_pos hfp, List.filter_cons_of_neg (by simp [hgp])]
        have hfg : t.filter f = t.filter g :=
          List.filter_congr
            (fun q hq' => hq q (List.mem_cons_of_mem _ hq') (fun he => hl.1 (he ▸ hq')))
        rw [hfg, List.length_cons]
      · have hpt : p ∈ t := by
          rcases List.mem_cons.mp hp with h | h
          · exact absurd h.symm hap
          · exact h
        have hfa : f a = g a := hq a (List.mem_cons_self a t) hap
        have iht := ih hl.2 hpt (fun q hq' hne => hq q (List.mem_cons_of_mem _ hq') hne)
        by_cases ha : f a = true
        · rw [List.filter_cons_of_pos ha, List.filter_cons_of_pos (hfa ▸ ha),
            List.length_cons, List.length_cons]
          omega
        · rw [List.filter_cons_of_neg ha, List.filter_cons_of_neg (hfa ▸ ha)]
          exact iht

/-- C7 counterexample: the claim says a merge never removes or empties an
already-filled slot, so filling never regresses completeness; but with the
location slot already filled, a turn whose extraction yields an empty
string for location overwrites the filled value, and the validator
afterwards reports one more missing parameter than before. -/
theorem merge_progress_counterexample :
    (validate_slots stateLocFilled.slots "weather").missing.length = 0 ∧
    dictGet (process_message memLocFilled "s" emptyLocOracle 2).memory "s" =
      some { session_id := "s", active_intent := some "weather",
             slots := [("location", PyVal.pstr "")], slot_completion_status := [],
             last_updated := 2 } ∧
    (validate_slots [("location", PyVal.pstr "")] "weather").missing.length = 1 := by
  exact ⟨by decide, by decide, by decide⟩

/-- C7 amended: (A) merging a mapping that makes one previously-missing
required parameter present and leaves every other required parameter's
value unchanged makes the validator report exactly one fewer missing
parameter; (B) a merge never removes a slot key; (C) the extraction merge
never stores a null over a slot that was not already null (nulls are
filtered before merging).  However a merge can overwrite a filled slot
with an empty string, which regresses completeness (see the
counterexample). -/
theorem merge_progress_spec :
    (∀ (slots new : Slots) (intent : String) (req : List String) (p : String),
      schemaOf intent = some req →
      p ∈ (validate_slots slots intent).missing →
      slotAbsent (dictGet (dictUpdate slots new) p) = false →
      (∀ q, q ∈ req → q ≠ p → dictGet (dictUpdate slots new) q = dictGet slots q) →
      (validate_slots (dictUpdate slots new) intent).missing.length + 1 =
        (validate_slots slots intent).missing.length) ∧
    (∀ (slots new : Slots) (k : String),
      (dictGet slots k).isSome → (dictGet (dictUpdate slots new) k).isSome) ∧
    (∀ (intent : String) (existing result : Slots) (k : String),
      (result.map Prod.fst).Nodup →
      dictGet (llm_extract_slots intent existing (ExtractOutcome.ok result)) k =
        some PyVal.pnone →
      dictGet existing k = some PyVal.pnone) := by
  refine ⟨?_, fun slots new k h => dictGet_dictUpdate_isSome new h, ?_⟩
  · intro slots new intent req p hreq hp hfilled hothers
    rw [validate_slots_missing_eq slots intent req hreq] at hp ⊢
    rw [validate_slots_missing_eq (dictUpdate slots new) intent req hreq]
    simp only
    rcases List.mem_filter.mp hp with ⟨hpreq, hpabs⟩
    exact filter_length_flip (schemaOf_nodup hreq) hpreq hpabs hfilled
      (fun q hq hne => by rw [hothers q hq hne])
  · intro intent existing result k hnodup h
    unfold llm_extract_slots at h
    by_cases hi : intent ≠ "weather" ∧ intent ≠ "stock"
    · rw [if_pos hi] at h
      cases h
    · rw [if_neg hi] at h
      have hfn : ((result.filter (fun p => p.2 ≠ PyVal.pnone)).map Prod.fst).Nodup :=
        List.Nodup.sublist (List.Sublist.map Prod.fst (List.filter_sublist _)) hnodup
      cases hf : dictGet (result.filter (fun p => p.2 ≠ PyVal.pnone)) k with
      | some v =>
          rw [dictGet_dictUpdate_of_some existing hfn hf] at h
          cases h
          exfalso
          unfold dictGet at hf
          cases hfind : (result.filter (fun p => p.2 ≠ PyVal.pnone)).find?
              (fun p => p.1 == k) with
          | none => rw [hfind] at hf; cases hf
          | some q =>
              rw [hfind] at hf
              have hq2 : q.2 = PyVal.pnone := by injection hf
              have hqmem := List.mem_of_find?_eq_some hfind
              have := (List.mem_filter.mp hqmem).2
              simp [hq2] at this
      | none =>
          rw [dictGet_dictUpdate_of_none existing hf] at h
          exact h

/-- C7 witness: supplying the exchange for a stock session whose symbol is
already filled takes the missing count from one to zero, and the merge
keeps the symbol key present. -/
theorem merge_progress_spec_witness :
    (validate_slots
        (dictUpdate [("symbol", PyVal.pstr "TSLA")] [("exchange", PyVal.pstr "NASDAQ")])
        "stock").missing.length + 1 =
      (validate_slots [("symbol", PyVal.pstr "TSLA")] "stock").missing.length ∧
    (dictGet
        (dictUpdate [("symbol", PyVal.pstr "TSLA")] [("exchange", PyVal.pstr "NASDAQ")])
        "symbol").isSome :=
  ⟨merge_progress_spec.1 [("symbol", PyVal.pstr "TSLA")] [("exchange", PyVal.pstr "NASDAQ")]
      "stock" ["symbol", "exchange"] "exchange" rfl (by decide) (by decide) (by decide),
   merge_progress_spec.2.1 [("symbol", PyVal.pstr "TSLA")] [("exchange", PyVal.pstr "NASDAQ")]
      "symbol" (by decide)⟩

/-! ## Intent-scoped slots invariant (C3) -/

theorem dictInsert_key_mem {β : Type} {d : Dict β} {a : String} {v : β} {p : String × β}
    (h : p ∈ dictInsert d a v) : p.1 = a ∨ p.1 ∈ d.map Prod.fst := by
  rcases mem_dictInsert h with h | h
  · exact Or.inl (by rw [h])
  · exact Or.inr (List.mem_map.mpr ⟨p, h, rfl⟩)

theorem normalizeSlotValue_key_mem {s : Slots} {key : String} {f : String → String}
    {p : String × PyVal} (hp : p ∈ normalizeSlotValue s key f) :
    p.1 ∈ s.map Prod.fst ∨ p.1 = key := by
  unfold normalizeSlotValue at hp
  split at hp
  · split at hp
    · rcases dictInsert_key_mem hp with h | h
      · exact Or.inr h
      · exact Or.inl h
    · exact Or.inl (List.mem_map.mpr ⟨p, hp, rfl⟩)
  · exact Or.inl (List.mem_map.mpr ⟨p, hp, rfl⟩)

theorem llm_extract_slots_key_mem {intent : String} {existing : Slots} {o : ExtractOutcome}
    {p : String × PyVal}
    (hscope : ∀ result, o = ExtractOutcome.ok result →
      ∀ q ∈ result, q.1 ∈ (schemaOf intent).getD [])
    (hex : ∀ q ∈ existing, q.1 ∈ (schemaOf intent).getD [])
    (hp : p ∈ llm_extract_slots intent existing o) :
    p.1 ∈ (schemaOf intent).getD [] := by
  unfold llm_extract_slots at hp
  by_cases hi : intent ≠ "weather" ∧ intent ≠ "stock"
  · rw [if_pos hi] at hp
    cases hp
  · rw [if_neg hi] at hp
    cases o with
    | exc => exact hex p hp
    | ok result =>
        rcases mem_dictUpdate hp with h | h
        · exact hex p h
        · exact hscope result rfl p (List.mem_of_mem_filter h)

theorem extract_slots_key_mem {o : TurnOracle} {existing : Slots} {p : String × PyVal}
    (hscope : ExtractionScoped o)
    (hex : ∀ q ∈ existing, q.1 ∈ (schemaOf o.intent).getD [])
    (hp : p ∈ extract_slots o.intent existing o.extraction) :
    p.1 ∈ (schemaOf o.intent).getD [] := by
  unfold extract_slots at hp
  by_cases hsup : o.intent = "weather" ∨ o.intent = "stock"
  · have hsc := hscope hsup
    by_cases hst : (o.intent == "stock") = true
    · have hst' : o.intent = "stock" := str_beq_to_eq hst
      rw [if_pos hst] at hp
      unfold normalizeStockSlots at hp
      rcases normalizeSlotValue_key_mem hp with h | h
      · rcases List.mem_map.mp h with ⟨q, hq, hq1⟩
        rcases normalizeSlotValue_key_mem hq with h2 | h2
        · rcases List.mem_map.mp h2 with ⟨r, hr, hr1⟩
          have := llm_extract_slots_key_mem hsc hex hr
          rw [← hq1, ← hr1]
          exact this
        · rw [← hq1, h2, hst']
          decide
      · rw [h, hst']
        decide
    · rw [if_neg hst] at hp
      exact llm_extract_slots_key_mem hsc hex hp
  · push_neg at hsup
    have hst : ¬ (o.intent == "stock") = true := fun h => hsup.2 (str_beq_to_eq h)
    rw [if_neg hst] at hp
    unfold llm_extract_slots at hp
    rw [if_pos ⟨fun h => hsup.1 h, fun h => hsup.2 h⟩] at hp
    cases hp

theorem stateWF_fresh (sid : String) (now : Nat) : StateWF (freshState sid now) := by
  unfold StateWF freshState
  rfl

theorem turnStateAfterMerge_wf {st : ConversationState} {o : TurnOracle} {now : Nat}
    (hscope : ExtractionScoped o) (hst : StateWF st) :
    StateWF (turnStateAfterMerge st o now) := by
  have hstate1 : ∀ q ∈
      (if st.active_intent ≠ some o.intent then st.update_intent o.intent now else st).slots,
      q.1 ∈ (schemaOf o.intent).getD [] := by
    by_cases h : st.active_intent ≠ some o.intent
    · rw [if_pos h]
      unfold ConversationState.update_intent
      rw [if_pos h]
      intro q hq
      cases hq
    · rw [if_neg h]
      push_neg at h
      intro q hq
      have hwf := hst
      unfold StateWF at hwf
      rw [h] at hwf
      exact hwf q hq
  unfold StateWF
  rw [turnStateAfterMerge_active st o now]
  intro p hp
  have hp' : p ∈ dictUpdate
      (if st.active_intent ≠ some o.intent then st.update_intent o.intent now else st).slots
      (extract_slots o.intent
        (if st.active_intent ≠ some o.intent then st.update_intent o.intent now else st).slots
        o.extraction) := hp
  rcases mem_dictUpdate hp' with h | h
  · exact hstate1 p h
  · exact extract_slots_key_mem hscope hstate1 h

theorem stateWF_reset {st : ConversationState} {o : TurnOracle} {now' : Nat}
    (hact : st.active_intent = some o.intent) :
    StateWF (st.reset_slots now') := by
  unfold StateWF ConversationState.reset_slots
  simp only [hact]
  intro q hq
  cases hq

theorem memWF_dictInsert {mem : Memory} {sid : String} {st : ConversationState}
    (hmem : MemWF mem) (hst : StateWF st) : MemWF (dictInsert mem sid st) := by
  intro p hp
  rcases mem_dictInsert hp with h | h
  · rw [h]
    exact hst
  · exact hmem p h

theorem memWF_get_state {mem : Memory} (sid : String) (now : Nat) (hmem : MemWF mem) :
    MemWF (get_state mem sid now).2 := by
  unfold get_state
  cases hm : dictGet mem sid with
  | some st => exact hmem
  | none => exact memWF_dictInsert hmem (stateWF_fresh sid now)

theorem stateWF_get_state {mem : Memory} (sid : String) (now : Nat) (hmem : MemWF mem) :
    StateWF (get_state mem sid now).1 := by
  unfold get_state
  cases hm : dictGet mem sid with
  | some st =>
      simp only
      unfold dictGet at hm
      cases hfind : mem.find? (fun p => p.1 == sid) with
      | none =>
          rw [hfind] at hm
          cases hm
      | some q =>
          rw [hfind] at hm
          have hq : q.2 = st := by injection hm
          exact hq ▸ hmem q (List.mem_of_find?_eq_some hfind)
  | none => exact stateWF_fresh sid now

theorem turn_preserves_wf {mem : Memory} {sid : String} {o : TurnOracle} {now : Nat}
    (hmem : MemWF mem) (hscope : ExtractionScoped o) :
    MemWF (process_message mem sid o now).memory := by
  have hmem1 : MemWF (get_state mem sid now).2 := memWF_get_state sid now hmem
  have hwf2 : StateWF (turnStateAfterMerge (get_state mem sid now).1 o now) :=
    turnStateAfterMerge_wf hscope (stateWF_get_state sid now hmem)
  unfold process_message
  by_cases hu : (o.intent == "unknown") = true
  · rw [if_pos hu]
    exact hmem1
  · rw [if_neg hu]
    simp only
    by_cases hv :
        (validate_slots (turnStateAfterMerge (get_state mem sid now).1 o now).slots
          o.intent).valid = true
    · rw [if_neg (by simp [hv])]
      cases dispatchAttempt o.intent o with
      | ok r =>
          exact memWF_dictInsert hmem1 (stateWF_reset (turnStateAfterMerge_active _ o now))
      | error e =>
          exact memWF_dictInsert hmem1 (stateWF_reset (turnStateAfterMerge_active _ o now))
    · rw [if_pos (by simpa using hv)]
      exact memWF_dictInsert hmem1 hwf2

/-- C3 counterexample: the claim says extracted values for parameters
outside the active task's schema are ignored by the merge and never
stored; but a weather turn whose extraction yields a value for "foo"
stores it, so a reachable session state holds a slot key outside the
active task's schema. -/
theorem slots_scoped_counterexample :
    dictGet (process_message [] "s" fooOracle 1).memory "s" =
      some { session_id := "s", active_intent := some "weather",
             slots := [("foo", PyVal.pstr "bar")], slot_completion_status := [],
             last_updated := 1 } ∧
    schemaOf "weather" = some ["location"] ∧
    ¬ "foo" ∈ ["location"] := by
  exact ⟨by decide, rfl, by decide⟩

/-- C3 amended: under the extraction contract — the extractor only yields
values for parameters of the active task's schema — every session state
reachable by any sequence of orchestrator turns from the empty store keeps
every slot key inside the active task's schema, and a session with no
active task has no slots.  The merge itself does not filter: extracted
off-schema keys are stored verbatim (see the counterexample), so the
invariant holds only because of the contract. -/
theorem slots_scoped_amended (turns : List (String × TurnOracle × Nat))
    (hscope : ∀ t ∈ turns, ExtractionScoped t.2.1) :
    MemWF (runTurns [] turns) := by
  have main : ∀ (ts : List (String × TurnOracle × Nat)) (mem : Memory), MemWF mem →
      (∀ t ∈ ts, ExtractionScoped t.2.1) → MemWF (runTurns mem ts) := by
    intro ts
    induction ts with
    | nil =>
        intro mem h _
        exact h
    | cons t rest ih =>
        intro mem hmem hsc
        exact ih _ (turn_preserves_wf hmem (hsc t (by simp)))
          (fun u hu => hsc u (by simp [hu]))
  exact main turns [] (fun p hp => by cases hp) hscope

/-- C3 witness: a concrete weather turn whose extraction respects the
schema yields a well-formed store. -/
theorem slots_scoped_amended_witness :
    MemWF (runTurns [] [("s", weatherOkOracle, 1)]) :=
  slots_scoped_amended [("s", weatherOkOracle, 1)]
    (by
      intro t ht
      have ht' : t = ("s", weatherOkOracle, 1) := by simpa using ht
      subst ht'
      intro hsup result hres q hq
      have hres' : ExtractOutcome.ok [("location", PyVal.pstr "Paris")] =
          ExtractOutcome.ok result := hres
      cases hres'
      have hq' : q = ("location", PyVal.pstr "Paris") := by simpa using hq
      subst hq'
      decide)

end Mayday
